import Mathlib

/-!
Verification development for the News_project recommendation engine.

The definitions below are a shallow embedding of the Python source:
- `get_keyword_recommendations`, `get_svd_recommendations`,
  `get_bpr_recommendations`, `store_recommendations`, `feedback`,
  `log_user_action` from `app.py`;
- `calculate_map_at_k`, `calculate_hit_rate_at_k` from `evaluate_bpr_model.py`;
- `calculate_extended_metrics` from `evaluate_keyword_model.py`;
- `store_recommendations` (the TRUNCATE-based variant) from `evaluate_model.py`.

Database tables are modelled as lists of rows; SQL queries become list
operations.  Python floats become rationals.  The stream of values produced
by `random.random()` is passed in explicitly as a list of rationals in
[0, 1).  SQL `ORDER BY` is modelled by a stable insertion sort; where SQL
leaves tie order unspecified the model keeps the table order (stability),
matching Python's stable `sorted` where that is the sorting primitive.
-/

namespace NewsProject

/-- Stable insertion step: place `x` before the first element `y` with
`lt y x`; used to model stable descending sorts (`ORDER BY ... DESC` and
Python's `sorted(..., reverse=True)`). -/
def insertBy (lt : α → α → Bool) (x : α) : List α → List α
  | [] => [x]
  | y :: ys => if lt y x then x :: y :: ys else y :: insertBy lt x ys

/-- Stable sort: an element ends up before another iff it is strictly
greater under `lt` (with `lt a b` meaning `a` ranks strictly below `b`),
ties keeping the input order. -/
def sortBy (lt : α → α → Bool) (l : List α) : List α :=
  l.foldl (fun acc x => insertBy lt x acc) []

/-- A row of the `articles` table (the columns the core reads). -/
structure Article where
  id : Nat
  publishedAt : Int
  deriving DecidableEq, Repr

/-- A row of the `recommended_articles` table. -/
structure RecRow where
  userId : Nat
  articleId : Nat
  rank : Nat
  score : ℚ
  batchId : Option String
  algorithmVersion : String
  sessionId : String
  deriving DecidableEq, Repr

/-- The relational store: each field is one table, a list of rows in
insertion order.  `userArticleLog` and `userFeedback` rows are
(user_id, article_id, action/feedback type); `userSearches` rows are
(user_id, search_term); `articleKeywords` rows are
(article_id, keyword_text) after the join with the `keywords` table. -/
structure DB where
  articles : List Article
  userArticleLog : List (Nat × Nat × String)
  userFeedback : List (Nat × Nat × String)
  userSearches : List (Nat × String)
  articleKeywords : List (Nat × String)
  recommendedArticles : List RecRow
  deriving Repr

/-- COUNT(ual.id) for one article in the popularity query: number of
user_article_log rows (across all users) referencing the article. -/
def interactionCount (db : DB) (aid : Nat) : Nat :=
  (db.userArticleLog.filter (fun r => r.2.1 == aid)).length

/-- Comparator for the popularity query: `a` ranks strictly below `b`
when it has fewer interactions, or equally many and an older publish
time (`ORDER BY COUNT(ual.id) DESC, a.published_at DESC`). -/
def popLt (db : DB) (a b : Article) : Bool :=
  interactionCount db a.id < interactionCount db b.id ||
    (interactionCount db a.id == interactionCount db b.id &&
      decide (a.publishedAt < b.publishedAt))

/-- The popularity fallback query shared by all three scorers:
articles ordered by interaction count descending, then publish time
descending, limited to `topN`. -/
def popularArticles (db : DB) (topN : Nat) : List Article :=
  (sortBy (popLt db) db.articles).take topN

/-- SELECT article_id FROM user_article_log WHERE user_id = %s. -/
def userLogArticleIds (db : DB) (u : Nat) : List Nat :=
  (db.userArticleLog.filter (fun r => r.1 == u)).map (fun r => r.2.1)

/-- SELECT article_id, feedback_type FROM user_feedback WHERE user_id = %s. -/
def userFeedbackRows (db : DB) (u : Nat) : List (Nat × String) :=
  (db.userFeedback.filter (fun r => r.1 == u)).map (fun r => r.2)

/-- The `user_article_log` argument of `get_keyword_recommendations`
defaults to the user's log rows when the caller passes `None`. -/
def resolveLog (db : DB) (u : Nat) (o : Option (List Nat)) : List Nat :=
  o.getD (userLogArticleIds db u)

/-- The `user_feedback` argument of `get_keyword_recommendations`
defaults to the user's feedback rows when the caller passes `None`. -/
def resolveFb (db : DB) (u : Nat) (o : Option (List (Nat × String))) :
    List (Nat × String) :=
  o.getD (userFeedbackRows db u)

/-- GROUP BY search_term with COUNT(*), rows kept in first-occurrence
order (the model's deterministic choice for SQL's unspecified group
order). -/
def groupCounts (terms : List String) : List (String × Nat) :=
  terms.foldl (fun acc t =>
    if acc.any (fun p => p.1 == t) then
      acc.map (fun p => if p.1 == t then (p.1, p.2 + 1) else p)
    else acc ++ [(t, 1)]) []

/-- SELECT search_term, COUNT(*) ... GROUP BY search_term
ORDER BY frequency DESC LIMIT 5 for one user. -/
def searchKeywords (db : DB) (u : Nat) : List (String × Nat) :=
  (sortBy (fun a b => a.2 < b.2)
    (groupCounts ((db.userSearches.filter (fun r => r.1 == u)).map
      (fun r => r.2)))).take 5

/-- Keywords attached to one article via article_keywords ⋈ keywords. -/
def keywordsForArticle (db : DB) (aid : Nat) : List String :=
  (db.articleKeywords.filter (fun p => p.1 == aid)).map (fun p => p.2)

/-- Python dict accumulation `d[k] = d.get(k, 0) + w`: update in place if
the key exists, else append (dicts preserve insertion order). -/
def addWeight (m : List (String × ℚ)) (k : String) (w : ℚ) : List (String × ℚ) :=
  if m.any (fun p => p.1 == k) then
    m.map (fun p => if p.1 == k then (p.1, p.2 + w) else p)
  else m ++ [(k, w)]

/-- Add `w` for every keyword of the list into the accumulator dict. -/
def accumKeywords (w : ℚ) (m : List (String × ℚ)) (ks : List String) :
    List (String × ℚ) :=
  ks.foldl (fun acc k => addWeight acc k w) m

/-- The feedback-type weight table of the keyword scorer:
like→2.0, dislike→−2.0, read→1.0, click_external_link→1.5, else 0. -/
def fbWeight (ft : String) : ℚ :=
  if ft = "like" then 2
  else if ft = "dislike" then -2
  else if ft = "read" then 1
  else if ft = "click_external_link" then 3 / 2
  else 0

/-- The merged keyword_weights dict: search frequencies, then action
keywords (0.5 per interacted article), then feedback keywords. -/
def mergeWeights (search : List (String × Nat)) (log : List Nat)
    (fb : List (Nat × String)) (db : DB) : List (String × ℚ) :=
  let actionKeywords :=
    log.foldl (fun m aid => accumKeywords (1 / 2) m (keywordsForArticle db aid)) []
  let feedbackKeywords :=
    fb.foldl (fun m r => accumKeywords (fbWeight r.2) m (keywordsForArticle db r.1)) []
  let m1 := search.foldl (fun acc p => addWeight acc p.1 (p.2 : ℚ)) []
  let m2 := actionKeywords.foldl (fun acc p => addWeight acc p.1 p.2) m1
  feedbackKeywords.foldl (fun acc p => addWeight acc p.1 p.2) m2

/-- Line 196 of app.py: keep keywords of positive total weight, sorted
descending by weight (Python's stable `sorted`), truncated to 5. -/
def scorerKeywords (db : DB) (u : Nat) (ualOpt : Option (List Nat))
    (ufbOpt : Option (List (Nat × String))) : List (String × ℚ) :=
  (sortBy (fun a b => a.2 < b.2)
    ((mergeWeights (searchKeywords db u) (resolveLog db u ualOpt)
        (resolveFb db u ufbOpt) db).filter (fun p => decide ((0 : ℚ) < p.2)))).take 5

/-- Cumulative weights, as `itertools.accumulate` inside `random.choices`. -/
def cumWeights (ws : List ℚ) : List ℚ :=
  (ws.scanl (fun a b => a + b) 0).tail

/-- Python's `random.choices(population, weights, k=k)`: `k` independent
draws WITH replacement; each draw multiplies a uniform value from
`randoms` by the total weight and bisects the cumulative-weight list,
with the resulting index clamped to `len(population) - 1`. -/
def pyChoices (pop : List String) (ws : List ℚ) (k : Nat) (randoms : List ℚ) :
    List String :=
  let cum := cumWeights ws
  let total := cum.getLast?.getD 0
  let n := pop.length
  (List.range k).map (fun j =>
    pop.getD (min (cum.findIdx (fun c => decide (randoms.getD j 0 * total < c)))
      (n - 1)) "")

/-- Line 213 of app.py: draw `min(len(keywords), 3)` keywords from the
top-5 weighted list with `random.choices`. -/
def selectedKeywords (db : DB) (u : Nat) (ualOpt : Option (List Nat))
    (ufbOpt : Option (List (Nat × String))) (randoms : List ℚ) : List String :=
  let kws := scorerKeywords db u ualOpt ufbOpt
  pyChoices (kws.map (fun p => p.1)) (kws.map (fun p => p.2))
    (min kws.length 3) randoms

/-- SELECT article_id FROM user_feedback WHERE user_id AND
feedback_type = 'dislike'. -/
def dislikedArticleIds (db : DB) (u : Nat) : List Nat :=
  ((db.userFeedback.filter (fun r => r.1 == u && r.2.2 == "dislike")).map
    (fun r => r.2.1))

/-- The per-keyword article query of the scorer.  When the user has no
dislikes the source interpolates the literal `NULL` into
`a.id NOT IN (NULL)`; in SQL that predicate is UNKNOWN for every row, so
the query returns no rows at all.  Otherwise: articles carrying the
keyword, excluding disliked ids, publish time descending, LIMIT. -/
def articlesByKeyword (db : DB) (kw : String) (disliked : List Nat)
    (lim : Nat) : List Article :=
  if disliked = [] then []
  else
    (sortBy (fun a b => decide (a.publishedAt < b.publishedAt))
      (db.articles.filter (fun a =>
        decide ((a.id, kw) ∈ db.articleKeywords) && decide (a.id ∉ disliked)))).take lim

/-- The inner loop of the scorer: append each fetched article whose id
was not yet collected, stopping once `topN` articles are collected. -/
def addArticles (topN : Nat) : List Article → List Article → List Article
  | acc, [] => acc
  | acc, a :: rest =>
      let acc2 := if acc.any (fun b => b.id == a.id) then acc else acc ++ [a]
      if topN ≤ acc2.length then acc2 else addArticles topN acc2 rest

/-- The outer loop of the scorer over the sampled keywords.  `kSel` is
`len(selected_keywords)`, constant during the loop. -/
def keywordLoop (db : DB) (disliked : List Nat) (topN kSel : Nat) :
    List String → List Article → List Article
  | [], acc => acc
  | kw :: rest, acc =>
      if topN ≤ acc.length then acc
      else
        keywordLoop db disliked topN kSel rest
          (addArticles topN acc (articlesByKeyword db kw disliked
            (max 1 (topN / kSel) + 2)))

/-- app.py `get_keyword_recommendations`: popularity fallback on
insufficient data or an empty positive-keyword list, otherwise the
sampled-keyword candidate loop. -/
def get_keyword_recommendations (db : DB) (u : Nat)
    (ualOpt : Option (List Nat)) (ufbOpt : Option (List (Nat × String)))
    (topN : Nat) (randoms : List ℚ) : List Article :=
  if (searchKeywords db u).length < 3 ∧ (resolveLog db u ualOpt).length < 3 then
    popularArticles db topN
  else if scorerKeywords db u ualOpt ufbOpt = [] then
    popularArticles db topN
  else
    (keywordLoop db (dislikedArticleIds db u) topN
      (selectedKeywords db u ualOpt ufbOpt randoms).length
      (selectedKeywords db u ualOpt ufbOpt randoms) []).take topN

/-- The seen set of the latent-factor scorers: UNION of the user's log,
feedback, and previously recommended article ids. -/
def interactedArticleIds (db : DB) (u : Nat) : List Nat :=
  (userLogArticleIds db u ++
    ((db.userFeedback.filter (fun r => r.1 == u)).map (fun r => r.2.1)) ++
    ((db.recommendedArticles.filter (fun r => r.userId == u)).map
      (fun r => r.articleId))).dedup

/-- SELECT id FROM articles. -/
def allArticleIds (db : DB) : List Nat := db.articles.map (fun a => a.id)

/-- Candidate ids of the latent-factor scorers: all article ids minus
the seen set (Python set difference, modelled in catalog order). -/
def candidateIds (db : DB) (u : Nat) : List Nat :=
  ((allArticleIds db).dedup).filter (fun i => decide (i ∉ interactedArticleIds db u))

/-- The (article_id, estimated_rating) prediction list of the
latent-factor scorers, one entry per unseen candidate. -/
def latentPreds (db : DB) (score : Nat → Nat → ℚ) (u : Nat) : List (Nat × ℚ) :=
  (candidateIds db u).map (fun i => (i, score u i))

/-- The top-`topN` article ids after the stable descending sort of the
predictions by estimated rating. -/
def latentRecIds (db : DB) (score : Nat → Nat → ℚ) (u topN : Nat) : List Nat :=
  ((sortBy (fun x y => decide (x.2 < y.2)) (latentPreds db score u)).take topN).map
    (fun p => p.1)

/-- Common body of `get_svd_recommendations` and
`get_bpr_recommendations`: popularity fallback when no unseen candidate
exists, otherwise score the candidates, sort descending, take `topN`,
and re-fetch the article rows in that order. -/
def latentRecommendations (db : DB) (score : Nat → Nat → ℚ) (u topN : Nat) :
    List Article :=
  if candidateIds db u = [] then popularArticles db topN
  else if latentRecIds db score u topN = [] then []
  else (latentRecIds db score u topN).filterMap
    (fun i => db.articles.find? (fun a => a.id == i))

/-- app.py `get_svd_recommendations` with the loaded model's predict
function abstracted as `model`. -/
def get_svd_recommendations (db : DB) (model : Nat → Nat → ℚ) (u topN : Nat) :
    List Article :=
  latentRecommendations db model u topN

/-- app.py `get_bpr_recommendations`; the source stringifies ids before
calling the model's predict. -/
def get_bpr_recommendations (db : DB) (model : String → String → ℚ)
    (u topN : Nat) : List Article :=
  latentRecommendations db (fun uu aa => model (toString uu) (toString aa)) u topN

/-- Modelled from the spec: the CREATE TABLE statement for
`recommended_articles` is not under src/; per §3 of the spec its
uniqueness key is (user_id, article_id, batch_id), which is what makes
the INSERT raise MySQL error 1062 on a duplicate.  This predicate is
that key test. -/
def hasRecKey (t : List RecRow) (u a : Nat) (b : Option String) : Bool :=
  t.any (fun r => r.userId == u && r.articleId == a && r.batchId == b)

/-- Number of ledger rows carrying a given (user, article, batch) key. -/
def countKey (t : List RecRow) (u a : Nat) (b : Option String) : Nat :=
  (t.filter (fun r => r.userId == u && r.articleId == a && r.batchId == b)).length

/-- One INSERT into recommended_articles: the duplicate-key error on an
existing (user, article, batch) key is caught and the row skipped,
otherwise the row is appended. -/
def insertRec (t : List RecRow) (row : RecRow) : List RecRow :=
  if hasRecKey t row.userId row.articleId row.batchId then t else t ++ [row]

/-- The enumerate(article_ids, 1) loop of app.py `store_recommendations`. -/
def storeGo (u : Nat) (b : Option String) (v sid : String) :
    List RecRow → Nat → List Nat → List RecRow
  | t, _, [] => t
  | t, rank, a :: rest =>
      storeGo u b v sid (insertRec t ⟨u, a, rank, 1 / (rank : ℚ), b, v, sid⟩)
        (rank + 1) rest

/-- app.py `store_recommendations`: ranks 1..N in list order, score
1/rank, session id = batch id when given else a fresh token
(`freshSession` stands for `str(uuid.uuid4())[:8]`). -/
def store_recommendations (t : List RecRow) (u : Nat) (ids : List Nat)
    (b : Option String) (v freshSession : String) : List RecRow :=
  storeGo u b v (b.getD freshSession) t 1 ids

/-- evaluate_model.py `store_recommendations`: TRUNCATEs the table, then
inserts a row per valid article id, the rank counter advancing over
skipped invalid ids too (enumerate before the validity check). -/
def store_recommendations_eval (t : List RecRow) (validArticles : List Nat)
    (recs : List (Nat × List Nat)) : List RecRow :=
  recs.foldl (fun acc p =>
    acc ++ ((p.2.enum.filter (fun q => decide (q.2 ∈ validArticles))).map
      (fun q => ⟨p.1, q.2, q.1 + 1, 1 / ((q.1 + 1 : Nat) : ℚ), none, "", ""⟩))) []

/-- app.py `log_user_action` without the optional read_time/scroll_depth
columns (the feedback endpoint calls it that way). -/
def log_user_action (log : List (Nat × Nat × String)) (u a : Nat)
    (action : String) : List (Nat × Nat × String) :=
  log ++ [(u, a, action)]

/-- Result of one feedback call: new user_feedback table, new
user_article_log table, success flag, HTTP status code. -/
structure FeedbackOutcome where
  fb : List (Nat × Nat × String)
  log : List (Nat × Nat × String)
  ok : Bool
  code : Nat
  deriving DecidableEq, Repr

/-- app.py `/feedback` handler after the auth checks: fetch the existing
row, log an action for like/dislike, then cancel / duplicate-accept /
update / insert / reject in the source's branch order. -/
def feedback (fb log : List (Nat × Nat × String)) (u a : Nat)
    (ft : String) : FeedbackOutcome :=
  let existing := fb.find? (fun r => r.1 == u && r.2.1 == a)
  let log2 :=
    if ft = "like" ∨ ft = "dislike" ∨ ft = "read" ∨ ft = "click_external_link" then
      if ft = "like" ∨ ft = "dislike" then
        log_user_action log u a ("feedback_" ++ ft)
      else log
    else log
  if ft = "cancel" then
    match existing with
    | some _ => ⟨fb.filter (fun r => !(r.1 == u && r.2.1 == a)), log2, true, 200⟩
    | none => ⟨fb, log2, false, 400⟩
  else
    match existing with
    | some r =>
        if r.2.2 = ft then ⟨fb, log2, true, 200⟩
        else
          ⟨fb.map (fun s => if s.1 == u && s.2.1 == a then (s.1, s.2.1, ft) else s),
            log2, true, 200⟩
    | none =>
        if ft = "like" ∨ ft = "dislike" ∨ ft = "read" ∨ ft = "click_external_link" then
          ⟨fb ++ [(u, a, ft)], log2, true, 200⟩
        else ⟨fb, log2, false, 400⟩

/-- The hits/score accumulation of the AP loops (identical in
evaluate_bpr_model.py and evaluate_keyword_model.py): walk the predicted
list with 1-indexed position `i`, adding `hits/i` at each true positive. -/
def apScan (trueItems : List Nat) : List Nat → Nat → Nat → ℚ
  | [], _, _ => 0
  | p :: rest, i, hits =>
      if p ∈ trueItems then
        ((hits + 1 : Nat) : ℚ) / (i : ℚ) + apScan trueItems rest (i + 1) (hits + 1)
      else apScan trueItems rest (i + 1) hits

/-- evaluate_bpr_model.py `calculate_map_at_k`: users with an empty true
list or an empty predicted list are skipped; each kept user contributes
AP = score / min(len(true_items), k); the mean of the kept scores. -/
def calculate_map_at_k (yTrue yPred : List (List Nat)) (k : Nat) : ℚ :=
  let apScores := (yTrue.zip yPred).filterMap (fun tp =>
    if tp.1 = [] ∨ tp.2 = [] then none
    else some (apScan tp.1 (tp.2.take k) 1 0 / ((min tp.1.length k : Nat) : ℚ)))
  if apScores = [] then 0 else apScores.sum / (apScores.length : ℚ)

/-- The (hits, total) counters of `calculate_hit_rate_at_k`: users with
an empty true list are skipped; every other user enters the
denominator, and the numerator when some top-k prediction is a true
positive. -/
def hitTotals (yTrue yPred : List (List Nat)) (k : Nat) : Nat × Nat :=
  (yTrue.zip yPred).foldl (fun ht tp =>
    if tp.1 = [] then ht
    else ((if (tp.2.take k).any (fun p => decide (p ∈ tp.1)) then ht.1 + 1 else ht.1),
      ht.2 + 1)) (0, 0)

/-- evaluate_bpr_model.py `calculate_hit_rate_at_k`. -/
def calculate_hit_rate_at_k (yTrue yPred : List (List Nat)) (k : Nat) : ℚ :=
  let ht := hitTotals yTrue yPred k
  if ht.2 = 0 then 0 else (ht.1 : ℚ) / (ht.2 : ℚ)

/-- The binary-relevance DCG loop of evaluate_keyword_model.py:
0-indexed position `i` contributes `1 / log2(i + 2)` at each relevant
article.  `lg` abstracts `np.log2`, which the source only ever applies
to the natural number `i + 2`. -/
def dcgScan (lg : Nat → ℚ) (relevant : List Nat) : List Nat → Nat → ℚ
  | [], _ => 0
  | p :: rest, i =>
      (if p ∈ relevant then 1 / lg (i + 2) else 0) + dcgScan lg relevant rest (i + 1)

/-- Per-user (AP, NDCG, HitRate) of `calculate_extended_metrics`:
AP divides by len(set(liked)); IDCG sums the first min(k, len(set(liked)))
ideal positions; NDCG is 0 when IDCG is not positive. -/
def extUser (lg : Nat → ℚ) (liked pred : List Nat) (k : Nat) : ℚ × ℚ × ℚ :=
  let ap := apScan liked (pred.take k) 1 0 / ((liked.dedup.length : Nat) : ℚ)
  let dcg := dcgScan lg liked (pred.take k) 0
  let idcg := ((List.range (min k liked.dedup.length)).map
    (fun i => 1 / lg (i + 2))).sum
  let ndcg := if 0 < idcg then dcg / idcg else 0
  let hit : ℚ := if (pred.take k).any (fun p => decide (p ∈ liked)) then 1 else 0
  (ap, ndcg, hit)

/-- Dictionary lookup `actual_liked_articles[user_id]`. -/
def lookupList (u : Nat) (m : List (Nat × List Nat)) : Option (List Nat) :=
  (m.find? (fun p => p.1 == u)).map (fun p => p.2)

/-- evaluate_keyword_model.py `calculate_extended_metrics`: users
without a non-empty liked list are skipped; the three sums are divided
by the number of evaluated users.  The `actual_interacted_articles`
argument is accepted but, as in the source, never used by the metric. -/
def calculate_extended_metrics (lg : Nat → ℚ)
    (predictedRanks actualLiked actualInteracted : List (Nat × List Nat))
    (k : Nat) : ℚ × ℚ × ℚ :=
  let users := predictedRanks.filterMap (fun p =>
    match lookupList p.1 actualLiked with
    | none => none
    | some l => if l = [] then none else some (extUser lg l p.2 k))
  let n := users.length
  if n = 0 then (0, 0, 0)
  else (((users.map (fun x => x.1)).sum) / (n : ℚ),
    ((users.map (fun x => x.2.1)).sum) / (n : ℚ),
    ((users.map (fun x => x.2.2)).sum) / (n : ℚ))

/-- Modelled from the spec: the Average Precision formula as §4.5 words
it — the positional sum divided by `min(|true positives|, k)`, true
positives being a set.  Used only to compare the code against the
spec's sentence. -/
def apSpecFormula (truePos pred : List Nat) (k : Nat) : ℚ :=
  apScan truePos (pred.take k) 1 0 / ((min truePos.dedup.length k : Nat) : ℚ)

/-- A catalog of one article that user 1 has disliked, with no searches
and no interactions: the scorer takes the popularity fallback. -/
def exDB1 : DB :=
  { articles := [⟨1, 0⟩]
    userArticleLog := []
    userFeedback := [(1, 1, "dislike")]
    userSearches := []
    articleKeywords := []
    recommendedArticles := [] }

/-- A store where user 1 has four logged interactions whose articles
carry keywords "a" and "b" with equal total weight 1.0 each, plus a
dislike on keyword-less article 99. -/
def exDB2 : DB :=
  { articles := [⟨10, 3⟩, ⟨11, 2⟩, ⟨12, 1⟩, ⟨13, 0⟩, ⟨99, 5⟩]
    userArticleLog := [(1, 10, "view"), (1, 11, "view"), (1, 12, "view"), (1, 13, "view")]
    userFeedback := [(1, 99, "dislike")]
    userSearches := []
    articleKeywords := [(10, "a"), (11, "a"), (12, "b"), (13, "b")]
    recommendedArticles := [] }

theorem mem_insertBy {lt : α → α → Bool} {x a : α} {l : List α} :
    a ∈ insertBy lt x l ↔ a = x ∨ a ∈ l := by
  induction l with
  | nil => simp [insertBy]
  | cons y ys ih =>
      simp only [insertBy]
      split
      · simp [List.mem_cons]
      · simp only [List.mem_cons, ih]
        tauto

theorem mem_sortBy {lt : α → α → Bool} {a : α} {l : List α} :
    a ∈ sortBy lt l ↔ a ∈ l := by
  suffices h : ∀ acc : List α,
      a ∈ l.foldl (fun acc x => insertBy lt x acc) acc ↔ a ∈ acc ∨ a ∈ l by
    simpa [sortBy] using h []
  induction l with
  | nil => intro acc; simp
  | cons x xs ih =>
      intro acc
      simp only [List.foldl_cons]
      rw [ih]
      simp only [mem_insertBy, List.mem_cons]
      tauto

theorem mem_articlesByKeyword {db : DB} {kw : String} {disliked : List Nat}
    {lim : Nat} {a : Article} (h : a ∈ articlesByKeyword db kw disliked lim) :
    a.id ∉ disliked := by
  unfold articlesByKeyword at h
  split at h
  · simp at h
  · have h2 := List.take_subset _ _ h
    rw [mem_sortBy] at h2
    have h3 := List.of_mem_filter h2
    simp only [Bool.and_eq_true, decide_eq_true_eq] at h3
    exact h3.2

theorem addArticles_preserves {P : Article → Prop} (topN : Nat) :
    ∀ (l acc : List Article), (∀ a ∈ acc, P a) → (∀ a ∈ l, P a) →
      ∀ a ∈ addArticles topN acc l, P a := by
  intro l
  induction l with
  | nil =>
      intro acc hacc _
      simpa [addArticles] using hacc
  | cons x xs ih =>
      intro acc hacc hl
      have hx : P x := hl x (List.mem_cons_self x xs)
      have hxs : ∀ a ∈ xs, P a := fun a ha => hl a (List.mem_cons_of_mem x ha)
      have happ : ∀ a ∈ acc ++ [x], P a := by
        intro a ha
        rcases List.mem_append.mp ha with h | h
        · exact hacc a h
        · simp only [List.mem_singleton] at h
          exact h ▸ hx
      simp only [addArticles]
      split
      · split
        · exact hacc
        · exact ih acc hacc hxs
      · split
        · exact happ
        · exact ih _ happ hxs

theorem keywordLoop_preserves (db : DB) (disliked : List Nat) (topN kSel : Nat) :
    ∀ (kws : List String) (acc : List Article), (∀ a ∈ acc, a.id ∉ disliked) →
      ∀ a ∈ keywordLoop db disliked topN kSel kws acc, a.id ∉ disliked := by
  intro kws
  induction kws with
  | nil =>
      intro acc hacc
      simpa [keywordLoop] using hacc
  | cons kw rest ih =>
      intro acc hacc
      simp only [keywordLoop]
      split
      · exact hacc
      · exact ih _ (addArticles_preserves topN _ acc hacc
          (fun a ha => mem_articlesByKeyword ha))

/-- C1: the claim is FALSE as stated.  User 1 of `exDB1` has a live
dislike on article 1, has no searches and no interactions, so the
keyword scorer takes the popularity-fallback branch and returns exactly
article 1 — a disliked article. -/
theorem C1_counterexample :
    (get_keyword_recommendations exDB1 1 none none 10 []).map Article.id = [1] ∧
      dislikedArticleIds exDB1 1 = [1] := by decide

/-- C1 amended: on the sampled-keyword path (sufficient signal and a
non-empty positive-keyword list) the scorer never returns an article the
user has marked dislike; the popularity-fallback branches carry no such
filter. -/
theorem C1_keyword_path_excludes_dislikes (db : DB) (u : Nat)
    (ualOpt : Option (List Nat)) (ufbOpt : Option (List (Nat × String)))
    (topN : Nat) (randoms : List ℚ)
    (h1 : ¬((searchKeywords db u).length < 3 ∧ (resolveLog db u ualOpt).length < 3))
    (h2 : scorerKeywords db u ualOpt ufbOpt ≠ []) :
    ∀ a ∈ get_keyword_recommendations db u ualOpt ufbOpt topN randoms,
      a.id ∉ dislikedArticleIds db u := by
  intro a ha
  rw [get_keyword_recommendations, if_neg h1, if_neg h2] at ha
  exact keywordLoop_preserves db _ topN _ _ [] (by simp) a
    (List.take_subset _ _ ha)

theorem ex2_scorer : scorerKeywords exDB2 1 none none = [("a", 1), ("b", 1)] := by
  simp [scorerKeywords, mergeWeights, accumKeywords, addWeight, keywordsForArticle,
    exDB2, fbWeight, searchKeywords, groupCounts, sortBy, insertBy, resolveLog,
    resolveFb, userLogArticleIds, userFeedbackRows]
  norm_num [sortBy, insertBy]

theorem ex2_selected : selectedKeywords exDB2 1 none none [0, 0] = ["a", "a"] := by
  simp [selectedKeywords, ex2_scorer, pyChoices, cumWeights, List.range_succ]
  norm_num [List.findIdx, List.findIdx.go]

/-- C1 amended, instantiated: in `exDB2` user 1 has four interactions,
so the sampled-keyword path runs and the returned article 10 is not
disliked. -/
theorem C1_amended_witness :
    (⟨10, 3⟩ : Article).id ∉ dislikedArticleIds exDB2 1 :=
  C1_keyword_path_excludes_dislikes exDB2 1 none none 10 [0, 0] (by decide)
    (by simp [ex2_scorer]) ⟨10, 3⟩
    (by rw [get_keyword_recommendations, if_neg (by decide),
          if_neg (by simp [ex2_scorer]), ex2_selected]
        decide)

/-- C2: the claim is FALSE as stated.  In `exDB2` the scorer reaches the
sampling step with weighted keyword list [("a",1),("b",1)]; with random
stream [0,0] the `random.choices` call returns ["a","a"] — the keyword
"a" appears twice in the sampled selection, because `random.choices`
draws WITH replacement. -/
theorem C2_counterexample :
    selectedKeywords exDB2 1 none none [0, 0] = ["a", "a"] ∧
      ¬(selectedKeywords exDB2 1 none none [0, 0]).Nodup ∧
      ¬((searchKeywords exDB2 1).length < 3 ∧ (resolveLog exDB2 1 none).length < 3) ∧
      scorerKeywords exDB2 1 none none ≠ [] :=
  ⟨ex2_selected, by rw [ex2_selected]; decide, by decide, by simp [ex2_scorer]⟩

/-- C2 amended: the sampling draws WITH replacement; the selection has
exactly `min(#keywords, 3) ≤ 3` entries, each taken from the top-5
weighted keyword list, but a keyword may be drawn more than once. -/
theorem C2_sampling_with_replacement_bounds (db : DB) (u : Nat)
    (ualOpt : Option (List Nat)) (ufbOpt : Option (List (Nat × String)))
    (randoms : List ℚ) (h : scorerKeywords db u ualOpt ufbOpt ≠ []) :
    (selectedKeywords db u ualOpt ufbOpt randoms).length
        = min (scorerKeywords db u ualOpt ufbOpt).length 3 ∧
      (selectedKeywords db u ualOpt ufbOpt randoms).length ≤ 3 ∧
      ∀ x ∈ selectedKeywords db u ualOpt ufbOpt randoms,
        x ∈ (scorerKeywords db u ualOpt ufbOpt).map (fun p => p.1) := by
  refine ⟨by simp [selectedKeywords, pyChoices], ?_, ?_⟩
  · simp only [selectedKeywords, pyChoices, List.length_map, List.length_range]
    exact Nat.min_le_right _ _
  · intro x hx
    simp only [selectedKeywords, pyChoices, List.mem_map, List.mem_range] at hx
    obtain ⟨j, _, hj⟩ := hx
    set pop := (scorerKeywords db u ualOpt ufbOpt).map (fun p => p.1) with hpop
    have hn : 0 < pop.length := by
      rw [hpop, List.length_map]
      exact List.length_pos.mpr h
    have hidx : min ((cumWeights ((scorerKeywords db u ualOpt ufbOpt).map
        (fun p => p.2))).findIdx fun c =>
          decide (randoms.getD j 0 * ((cumWeights ((scorerKeywords db u ualOpt
            ufbOpt).map (fun p => p.2))).getLast?.getD 0) < c)) (pop.length - 1)
        < pop.length :=
      Nat.lt_of_le_of_lt (Nat.min_le_right _ _) (Nat.sub_lt hn Nat.one_pos)
    rw [List.getD_eq_getElem pop "" hidx] at hj
    exact hj ▸ List.getElem_mem _

/-- C2 amended, instantiated at `exDB2`: the selection has min(2,3) = 2
entries. -/
theorem C2_amended_witness :
    (selectedKeywords exDB2 1 none none [0, 0]).length
      = min (scorerKeywords exDB2 1 none none).length 3 :=
  (C2_sampling_with_replacement_bounds exDB2 1 none none [0, 0]
    (by simp [ex2_scorer])).1

/-- C5: a user with zero search events and zero interaction events takes
the insufficient-signal branch, so the keyword scorer returns exactly
the popularity fallback (interaction count descending, publish time
descending, LIMIT top_n). -/
theorem C5_zero_activity_fallback (db : DB) (u : Nat)
    (ufbOpt : Option (List (Nat × String))) (topN : Nat) (randoms : List ℚ)
    (hs : db.userSearches.filter (fun r => r.1 == u) = [])
    (hl : db.userArticleLog.filter (fun r => r.1 == u) = []) :
    get_keyword_recommendations db u none ufbOpt topN randoms
      = popularArticles db topN := by
  have h1 : searchKeywords db u = [] := by
    simp [searchKeywords, hs, groupCounts, sortBy]
  have h2 : resolveLog db u none = [] := by
    simp [resolveLog, userLogArticleIds, hl]
  rw [get_keyword_recommendations,
    if_pos (by rw [h1, h2]; exact ⟨by norm_num, by norm_num⟩)]

/-- C5 instantiated: user 1 of `exDB1` has no searches and no logged
interactions. -/
theorem C5_witness :
    get_keyword_recommendations exDB1 1 none none 10 [] = popularArticles exDB1 10 :=
  C5_zero_activity_fallback exDB1 1 none 10 [] (by decide) (by decide)

theorem hasRecKey_append {t l : List RecRow} {u a : Nat} {b : Option String} :
    hasRecKey (t ++ l) u a b = (hasRecKey t u a b || hasRecKey l u a b) := by
  simp [hasRecKey, List.any_append]

theorem hasRecKey_insertRec {t : List RecRow} {row : RecRow} {u a : Nat}
    {b : Option String} (h : hasRecKey t u a b = true) :
    hasRecKey (insertRec t row) u a b = true := by
  unfold insertRec
  split
  · exact h
  · rw [hasRecKey_append, h, Bool.true_or]

theorem hasRecKey_storeGo_mono {u0 a0 : Nat} {b0 : Option String} {u : Nat}
    {b : Option String} {v sid : String} :
    ∀ (ids : List Nat) (t : List RecRow) (r : Nat),
      hasRecKey t u0 a0 b0 = true →
      hasRecKey (storeGo u b v sid t r ids) u0 a0 b0 = true := by
  intro ids
  induction ids with
  | nil =>
      intro t r h
      simpa [storeGo] using h
  | cons x xs ih =>
      intro t r h
      simp only [storeGo]
      exact ih _ _ (hasRecKey_insertRec h)

theorem hasRecKey_storeGo_mem {u : Nat} {b : Option String} {v sid : String} :
    ∀ (ids : List Nat) (t : List RecRow) (r a : Nat), a ∈ ids →
      hasRecKey (storeGo u b v sid t r ids) u a b = true := by
  intro ids
  induction ids with
  | nil =>
      intro t r a h
      exact absurd h (List.not_mem_nil a)
  | cons x xs ih =>
      intro t r a h
      simp only [storeGo]
      rcases List.mem_cons.mp h with rfl | hmem
      · apply hasRecKey_storeGo_mono
        unfold insertRec
        split
        · assumption
        · rw [hasRecKey_append]
          simp [hasRecKey]
      · exact ih _ _ a hmem

theorem storeGo_noop {u : Nat} {b : Option String} {v sid : String} :
    ∀ (ids : List Nat) (t : List RecRow) (r : Nat),
      (∀ a ∈ ids, hasRecKey t u a b = true) →
      storeGo u b v sid t r ids = t := by
  intro ids
  induction ids with
  | nil =>
      intro t r _
      simp [storeGo]
  | cons x xs ih =>
      intro t r h
      simp only [storeGo]
      have hx : insertRec t ⟨u, x, r, 1 / (r : ℚ), b, v, sid⟩ = t := by
        unfold insertRec
        rw [if_pos (h x (List.mem_cons_self x xs))]
      rw [hx]
      exact ih _ _ (fun a ha => h a (List.mem_cons_of_mem x ha))

theorem countKey_append {t l : List RecRow} {u a : Nat} {b : Option String} :
    countKey (t ++ l) u a b = countKey t u a b + countKey l u a b := by
  simp [countKey, List.filter_append]

theorem countKey_storeGo_of_hasKey {u : Nat} {b : Option String} {v sid : String}
    {a : Nat} :
    ∀ (ids : List Nat) (t : List RecRow) (r : Nat),
      hasRecKey t u a b = true →
      countKey (storeGo u b v sid t r ids) u a b = countKey t u a b := by
  intro ids
  induction ids with
  | nil =>
      intro t r _
      simp [storeGo]
  | cons x xs ih =>
      intro t r h
      simp only [storeGo]
      by_cases hc : hasRecKey t u x b = true
      · have hins : insertRec t ⟨u, x, r, 1 / (r : ℚ), b, v, sid⟩ = t := by
          unfold insertRec
          rw [if_pos hc]
        rw [hins]
        exact ih _ _ h
      · have hxa : x ≠ a := fun he => hc (he ▸ h)
        have hins : insertRec t ⟨u, x, r, 1 / (r : ℚ), b, v, sid⟩
            = t ++ [⟨u, x, r, 1 / (r : ℚ), b, v, sid⟩] := by
          unfold insertRec
          rw [if_neg hc]
        rw [hins]
        have hkeep : hasRecKey (t ++ [(⟨u, x, r, 1 / (r : ℚ), b, v, sid⟩ : RecRow)])
            u a b = true := by
          rw [hasRecKey_append, h, Bool.true_or]
        rw [ih _ _ hkeep, countKey_append]
        simp [countKey, hxa]

theorem countKey_storeGo_fresh {u : Nat} {b : Option String} {v sid : String}
    {a : Nat} :
    ∀ (ids : List Nat) (t : List RecRow) (r : Nat),
      hasRecKey t u a b = false → a ∈ ids →
      countKey (storeGo u b v sid t r ids) u a b = countKey t u a b + 1 := by
  intro ids
  induction ids with
  | nil =>
      intro t r _ hmem
      exact absurd hmem (List.not_mem_nil a)
  | cons x xs ih =>
      intro t r hfalse hmem
      simp only [storeGo]
      by_cases hxa : x = a
      · subst hxa
        have hins : insertRec t ⟨u, x, r, 1 / (r : ℚ), b, v, sid⟩
            = t ++ [⟨u, x, r, 1 / (r : ℚ), b, v, sid⟩] := by
          unfold insertRec
          rw [if_neg (by simp [hfalse])]
        rw [hins]
        have htrue : hasRecKey (t ++ [(⟨u, x, r, 1 / (r : ℚ), b, v, sid⟩ : RecRow)])
            u x b = true := by
          rw [hasRecKey_append]
          simp [hasRecKey]
        rw [countKey_storeGo_of_hasKey xs _ _ htrue, countKey_append]
        simp [countKey]
      · have hmem2 : a ∈ xs := by
          rcases List.mem_cons.mp hmem with he | hm
          · exact absurd he.symm hxa
          · exact hm
        by_cases hc : hasRecKey t u x b = true
        · have hins : insertRec t ⟨u, x, r, 1 / (r : ℚ), b, v, sid⟩ = t := by
            unfold insertRec
            rw [if_pos hc]
          rw [hins]
          exact ih _ _ hfalse hmem2
        · have hins : insertRec t ⟨u, x, r, 1 / (r : ℚ), b, v, sid⟩
              = t ++ [⟨u, x, r, 1 / (r : ℚ), b, v, sid⟩] := by
            unfold insertRec
            rw [if_neg hc]
          rw [hins]
          have hkeep : hasRecKey (t ++ [(⟨u, x, r, 1 / (r : ℚ), b, v, sid⟩ : RecRow)])
              u a b = false := by
            rw [hasRecKey_append, hfalse, Bool.false_or]
            simp [hasRecKey, hxa]
          rw [ih _ _ hkeep hmem2, countKey_append]
          simp [countKey, hxa]

theorem hasRecKey_false_of_countKey_zero {t : List RecRow} {u a : Nat}
    {b : Option String} (h : countKey t u a b = 0) :
    hasRecKey t u a b = false := by
  unfold countKey at h
  unfold hasRecKey
  rw [List.any_eq_false]
  intro r hr
  exact List.filter_eq_nil_iff.mp (List.length_eq_zero.mp h) r hr

/-- C6: the ledger record operation is idempotent.  A second call with
the same (user, article_ids, batch_id) changes nothing, because each
INSERT hits the (user, article, batch) uniqueness key, raises error
1062, and is silently skipped; and a single call from a state without
the key leaves exactly one row per recorded (user, article, batch). -/
theorem C6_record_idempotent (t : List RecRow) (u : Nat) (ids : List Nat)
    (b : Option String) (v s s2 : String) :
    store_recommendations (store_recommendations t u ids b v s) u ids b v s2
        = store_recommendations t u ids b v s ∧
      ∀ a ∈ ids, countKey t u a b = 0 →
        countKey (store_recommendations t u ids b v s) u a b = 1 := by
  constructor
  · unfold store_recommendations
    exact storeGo_noop ids _ 1 (fun a ha => hasRecKey_storeGo_mem ids t 1 a ha)
  · intro a ha h0
    unfold store_recommendations
    rw [countKey_storeGo_fresh ids t 1 (hasRecKey_false_of_countKey_zero h0) ha, h0]

/-- C6 instantiated: recording [4, 5] for user 1 under batch "b" twice
leaves one row for (1, 4, "b"), and the second call is the identity. -/
theorem C6_witness :
    store_recommendations (store_recommendations [] 1 [4, 5] (some "b") "v" "s") 1
        [4, 5] (some "b") "v" "s2"
        = store_recommendations [] 1 [4, 5] (some "b") "v" "s" ∧
      countKey (store_recommendations [] 1 [4, 5] (some "b") "v" "s") 1 4 (some "b")
        = 1 :=
  ⟨(C6_record_idempotent [] 1 [4, 5] (some "b") "v" "s" "s2").1,
    (C6_record_idempotent [] 1 [4, 5] (some "b") "v" "s" "s2").2 4 (by decide) rfl⟩

theorem storeGo_append_only {u : Nat} {b : Option String} {v sid : String} :
    ∀ (ids : List Nat) (t : List RecRow) (r : Nat),
      ∃ suffix, storeGo u b v sid t r ids = t ++ suffix := by
  intro ids
  induction ids with
  | nil =>
      intro t r
      exact ⟨[], by simp [storeGo]⟩
  | cons x xs ih =>
      intro t r
      simp only [storeGo]
      have h1 : ∃ s1, insertRec t ⟨u, x, r, 1 / (r : ℚ), b, v, sid⟩ = t ++ s1 := by
        unfold insertRec
        split
        · exact ⟨[], by simp⟩
        · exact ⟨[⟨u, x, r, 1 / (r : ℚ), b, v, sid⟩], rfl⟩
      obtain ⟨s1, hs1⟩ := h1
      rw [hs1]
      obtain ⟨s2, hs2⟩ := ih (t ++ s1) (r + 1)
      exact ⟨s1 ++ s2, by rw [hs2, List.append_assoc]⟩

/-- An already-persisted ledger row. -/
def exLedger : List RecRow := [⟨1, 7, 1, 1, some "b", "v", "s"⟩]

/-- C7: the claim is FALSE as stated.  The `store_recommendations` of
evaluate_model.py begins with TRUNCATE TABLE recommended_articles, so a
later store operation deletes the persisted row of `exLedger`. -/
theorem C7_counterexample :
    (⟨1, 7, 1, 1, some "b", "v", "s"⟩ : RecRow) ∈ exLedger ∧
      store_recommendations_eval exLedger [] [] = [] :=
  ⟨List.mem_singleton.mpr rfl, rfl⟩

/-- C7 amended: the app-side ledger record operation only ever appends
(every prior row stays present and unchanged), but the LightFM
pipeline's store operation discards the entire previous table before
inserting. -/
theorem C7_append_only_vs_truncate :
    (∀ (t : List RecRow) (u : Nat) (ids : List Nat) (b : Option String)
        (v s : String), ∃ suffix, store_recommendations t u ids b v s = t ++ suffix) ∧
      ∀ (t : List RecRow) (valid : List Nat) (recs : List (Nat × List Nat)),
        store_recommendations_eval t valid recs
          = store_recommendations_eval [] valid recs := by
  constructor
  · intro t u ids b v s
    unfold store_recommendations
    exact storeGo_append_only ids t 1
  · intro t valid recs
    rfl

/-- C8: the code contradicts the claim.  User 1 has an existing "like"
feedback on article 5; a feedback call with the unknown type "bogus"
takes the update branch, overwrites the stored feedback with "bogus",
and returns success 200 instead of rejecting the input. -/
theorem C8_unknown_type_update_bug :
    feedback [(1, 5, "like")] [] 1 5 "bogus"
      = ⟨[(1, 5, "bogus")], [], true, 200⟩ := by decide

theorem mem_candidateIds_not_interacted {db : DB} {u i : Nat}
    (h : i ∈ candidateIds db u) : i ∉ interactedArticleIds db u := by
  unfold candidateIds at h
  have h2 := List.of_mem_filter h
  simpa using h2

theorem mem_latentRecIds {db : DB} {score : Nat → Nat → ℚ} {u topN i : Nat}
    (h : i ∈ latentRecIds db score u topN) : i ∈ candidateIds db u := by
  unfold latentRecIds at h
  simp only [List.mem_map] at h
  obtain ⟨p, hp, hfst⟩ := h
  have hp2 := List.take_subset _ _ hp
  rw [mem_sortBy] at hp2
  unfold latentPreds at hp2
  simp only [List.mem_map] at hp2
  obtain ⟨j, hj, hpj⟩ := hp2
  rw [← hfst, ← hpj]
  exact hj

theorem mem_latentRecommendations {db : DB} {score : Nat → Nat → ℚ}
    {u topN : Nat} {a : Article} (h : candidateIds db u ≠ [])
    (ha : a ∈ latentRecommendations db score u topN) :
    a.id ∈ candidateIds db u := by
  unfold latentRecommendations at ha
  rw [if_neg h] at ha
  split at ha
  · exact absurd ha (List.not_mem_nil a)
  · simp only [List.mem_filterMap] at ha
    obtain ⟨i, hi, hfind⟩ := ha
    have hp := List.find?_some hfind
    have hid : a.id = i := by simpa using hp
    rw [hid]
    exact mem_latentRecIds hi

theorem candidateIds_eq_nil_of_covered {db : DB} {u : Nat}
    (h : ∀ i ∈ allArticleIds db, i ∈ interactedArticleIds db u) :
    candidateIds db u = [] := by
  unfold candidateIds
  rw [List.filter_eq_nil_iff]
  intro i hi
  simp only [decide_eq_true_eq, not_not]
  exact h i (List.mem_dedup.mp hi)

/-- C9: both latent-factor scorers score only candidates outside the
seen set (log ∪ feedback ∪ previously recommended); when the seen set
covers the whole catalog, both return the same `popularArticles` list
the keyword scorer's fallback uses. -/
theorem C9_candidates_and_fallback (db : DB) (svd : Nat → Nat → ℚ)
    (bpr : String → String → ℚ) (u topN : Nat) :
    (candidateIds db u ≠ [] →
        ∀ a ∈ get_svd_recommendations db svd u topN,
          a.id ∈ candidateIds db u ∧ a.id ∉ interactedArticleIds db u) ∧
      (candidateIds db u ≠ [] →
        ∀ a ∈ get_bpr_recommendations db bpr u topN,
          a.id ∈ candidateIds db u ∧ a.id ∉ interactedArticleIds db u) ∧
      ((∀ i ∈ allArticleIds db, i ∈ interactedArticleIds db u) →
        get_svd_recommendations db svd u topN = popularArticles db topN ∧
          get_bpr_recommendations db bpr u topN = popularArticles db topN) := by
  refine ⟨?_, ?_, ?_⟩
  · intro h a ha
    have hc := mem_latentRecommendations h ha
    exact ⟨hc, mem_candidateIds_not_interacted hc⟩
  · intro h a ha
    have hc := mem_latentRecommendations h ha
    exact ⟨hc, mem_candidateIds_not_interacted hc⟩
  · intro h
    have hnil := candidateIds_eq_nil_of_covered h
    constructor
    · unfold get_svd_recommendations latentRecommendations
      rw [if_pos hnil]
    · unfold get_bpr_recommendations latentRecommendations
      rw [if_pos hnil]

/-- C9 instantiated: in `exDB1` user 2 has an empty seen set, so the
returned article 1 is an unseen candidate; user 1 has seen the whole
one-article catalog, so both scorers return the popularity fallback. -/
theorem C9_witness :
    ((⟨1, 0⟩ : Article).id ∈ candidateIds exDB1 2 ∧
        (⟨1, 0⟩ : Article).id ∉ interactedArticleIds exDB1 2) ∧
      get_svd_recommendations exDB1 (fun _ _ => 0) 1 10 = popularArticles exDB1 10 ∧
        get_bpr_recommendations exDB1 (fun _ _ => 0) 1 10 = popularArticles exDB1 10 :=
  ⟨(C9_candidates_and_fallback exDB1 (fun _ _ => 0) (fun _ _ => 0) 2 10).1
      (by decide) ⟨1, 0⟩ (by decide),
    (C9_candidates_and_fallback exDB1 (fun _ _ => 0) (fun _ _ => 0) 1 10).2.2
      (by decide)⟩

/-- C3: on predicted [1,2,3] with ground truth {2} and k = 3, the
harness computes AP = 1/2 and HitRate = 1 in both metric
implementations, and `calculate_extended_metrics` computes
NDCG = (1/log2 3) / (1/log2 2) = 1/log2 3 for any model `lg` of np.log2
(so with lg 2 = 1). -/
theorem C3_example_metrics (lg : Nat → ℚ) (inter : List (Nat × List Nat))
    (hlg2 : lg 2 = 1) :
    calculate_map_at_k [[2]] [[1, 2, 3]] 3 = 1 / 2 ∧
      calculate_hit_rate_at_k [[2]] [[1, 2, 3]] 3 = 1 ∧
      calculate_extended_metrics lg [(1, [1, 2, 3])] [(1, [2])] inter 3
        = (1 / 2, 1 / lg 3, 1) := by
  refine ⟨?_, ?_, ?_⟩
  · simp [calculate_map_at_k, apScan]
  · simp [calculate_hit_rate_at_k, hitTotals]
  · simp [calculate_extended_metrics, lookupList, extUser, apScan, dcgScan,
      List.range_succ, hlg2]

/-- C3 instantiated with the constant-one log model. -/
theorem C3_example_metrics_witness :
    calculate_map_at_k [[2]] [[1, 2, 3]] 3 = 1 / 2 ∧
      calculate_hit_rate_at_k [[2]] [[1, 2, 3]] 3 = 1 ∧
      calculate_extended_metrics (fun _ => 1) [(1, [1, 2, 3])] [(1, [2])] [] 3
        = (1 / 2, 1 / (1 : ℚ), 1) :=
  C3_example_metrics (fun _ => 1) [] rfl

/-- C4: the claim is FALSE as stated for `calculate_extended_metrics`.
With predicted [1], true positives {1, 2} and k = 1, the spec formula
divides by min(2, 1) = 1 giving AP = 1, but the code divides by the
full true-positive count 2, giving AP = 1/2. -/
theorem C4_counterexample :
    (calculate_extended_metrics (fun _ => 1) [(1, [1])] [(1, [1, 2])] [] 1).1
        = 1 / 2 ∧
      apSpecFormula [1, 2] [1] 1 = 1 ∧ (1 / 2 : ℚ) ≠ 1 := by
  refine ⟨?_, ?_, by norm_num⟩
  · simp [calculate_extended_metrics, lookupList, extUser, apScan, dcgScan,
      List.range_succ]
  · simp [apSpecFormula, apScan]

/-- C4 amended: for a user with non-empty true positives and a
non-empty predicted list, `calculate_map_at_k` divides the positional
sum by min(len(true_items), k) as the claim states, while
`calculate_extended_metrics` divides by the full true-positive set size
unconditionally — so the two AP implementations disagree whenever the
user has more than k true positives. -/
theorem C4_ap_divisors (t p : List Nat) (k : Nat) (lg : Nat → ℚ) (u : Nat)
    (inter : List (Nat × List Nat)) (ht : t ≠ []) (hp : p ≠ []) :
    calculate_map_at_k [t] [p] k
        = apScan t (p.take k) 1 0 / ((min t.length k : Nat) : ℚ) ∧
      (calculate_extended_metrics lg [(u, p)] [(u, t)] inter k).1
        = apScan t (p.take k) 1 0 / ((t.dedup.length : Nat) : ℚ) := by
  constructor
  · simp [calculate_map_at_k, ht, hp]
  · simp [calculate_extended_metrics, lookupList, extUser, ht]

/-- C4 amended, instantiated at the counterexample input. -/
theorem C4_amended_witness :
    calculate_map_at_k [[1, 2]] [[1]] 1
        = apScan [1, 2] ([1].take 1) 1 0 / ((min ([1, 2] : List Nat).length 1 : Nat) : ℚ) ∧
      (calculate_extended_metrics (fun _ => 1) [(1, [1])] [(1, [1, 2])] [] 1).1
        = apScan [1, 2] ([1].take 1) 1 0 / ((([1, 2] : List Nat).dedup.length : Nat) : ℚ) :=
  C4_ap_divisors [1, 2] [1] 1 (fun _ => 1) 1 [] (by decide) (by decide)

/-- C10: a user with non-empty ground truth but an empty predicted list
is skipped entirely by the MAP aggregation, while the HitRate
aggregation counts the user in its denominator as a miss; consequently
on [[1],[2]] vs [[1],[]] with k = 1 MAP averages over one user (= 1)
while HitRate averages over two (= 1/2). -/
theorem C10_map_skips_hitrate_counts (yt yp : List (List Nat)) (t : List Nat)
    (k : Nat) (hlen : yt.length = yp.length) (ht : t ≠ []) :
    calculate_map_at_k (yt ++ [t]) (yp ++ [[]]) k = calculate_map_at_k yt yp k ∧
      hitTotals (yt ++ [t]) (yp ++ [[]]) k
        = ((hitTotals yt yp k).1, (hitTotals yt yp k).2 + 1) ∧
      calculate_map_at_k [[1], [2]] [[1], []] 1 = 1 ∧
      calculate_hit_rate_at_k [[1], [2]] [[1], []] 1 = 1 / 2 := by
  refine ⟨?_, ?_, ?_, ?_⟩
  · simp only [calculate_map_at_k]
    rw [List.zip_append hlen, List.filterMap_append]
    have h0 : List.filterMap (fun tp : List Nat × List Nat =>
        if tp.1 = [] ∨ tp.2 = [] then none
        else some (apScan tp.1 (tp.2.take k) 1 0 / ((min tp.1.length k : Nat) : ℚ)))
        ([t].zip [[]]) = [] := by simp
    rw [h0, List.append_nil]
  · unfold hitTotals
    rw [List.zip_append hlen, List.foldl_append]
    simp [ht]
  · simp [calculate_map_at_k, apScan]
  · simp [calculate_hit_rate_at_k, hitTotals]

/-- C10 instantiated: appending a (non-empty truth, empty prediction)
user changes nothing for MAP and adds one miss to HitRate's
denominator. -/
theorem C10_witness :
    calculate_map_at_k ([[5]] ++ [[7]]) ([[5]] ++ [[]]) 2
        = calculate_map_at_k [[5]] [[5]] 2 ∧
      hitTotals ([[5]] ++ [[7]]) ([[5]] ++ [[]]) 2
        = ((hitTotals [[5]] [[5]] 2).1, (hitTotals [[5]] [[5]] 2).2 + 1) ∧
      calculate_map_at_k [[1], [2]] [[1], []] 1 = 1 ∧
      calculate_hit_rate_at_k [[1], [2]] [[1], []] 1 = 1 / 2 :=
  C10_map_skips_hitrate_counts [[5]] [[5]] [7] 2 rfl (by decide)

end NewsProject
